import Mathlib

/-!
Verification development for the amp-acp bridge, shallowly embedding the
Conversation Diff & Session-Update Translation Engine of
`src/amp_agent.rs` and `src/main.rs`.

Rust `String` values are modelled as Lean `String`; all string operations
used by the source (`replace`, `split`, `trim`, `find`, `parse::<u32>`) are
re-implemented below on `List Char` with structural recursion so that every
definition is executable and kernel-reducible. Char indices coincide with
Rust's byte indices on all positions the code manipulates (the delimiters
involved are ASCII). `serde_json::Value` is modelled by `JsonValue`, with
objects as ordered field lists (arrays and objects are given by the mutual
types `JsonItems` and `JsonFields`) and numbers restricted to integers (no
claim depends on float payloads or on object key ordering).
-/

mutual

/-- Model of `serde_json::Value`. -/
inductive JsonValue where
  | null : JsonValue
  | bool (b : Bool) : JsonValue
  | num (n : Int) : JsonValue
  | str (s : String) : JsonValue
  | arr (items : JsonItems) : JsonValue
  | obj (fields : JsonFields) : JsonValue
deriving DecidableEq

/-- Elements of a JSON array. -/
inductive JsonItems where
  | nil : JsonItems
  | cons (head : JsonValue) (tail : JsonItems) : JsonItems
deriving DecidableEq

/-- Fields of a JSON object, in insertion order. -/
inductive JsonFields where
  | nil : JsonFields
  | cons (key : String) (val : JsonValue) (tail : JsonFields) : JsonFields
deriving DecidableEq

end

/-- Key lookup among object fields; `serde_json` maps cannot hold duplicate
keys, so first-match lookup is faithful. -/
def JsonFields.lookupKey : JsonFields → String → Option JsonValue
  | .nil, _ => none
  | .cons k v t, key => if k == key then some v else t.lookupKey key

/-- Field access on a JSON value (`Value::get("k")`); `none` on non-objects
and missing keys. -/
def JsonValue.getField (j : JsonValue) (k : String) : Option JsonValue :=
  match j with
  | .obj fields => fields.lookupKey k
  | _ => none

/-- Model of `Value::as_str()`. -/
def JsonValue.asStr : JsonValue → Option String
  | .str s => some s
  | _ => none

/-! ## String primitives (Rust `str` operations) -/

/-- Whether `l` begins with `pre` (`str::starts_with`). -/
def startsWithChars : List Char → List Char → Bool
  | _, [] => true
  | [], _ :: _ => false
  | c :: cs, d :: ds => c == d && startsWithChars cs ds

/-- Index of the first occurrence of `needle` in `hay` (`str::find`). -/
def findSub : List Char → List Char → Option Nat
  | hay, needle =>
    if startsWithChars hay needle then some 0
    else
      match hay with
      | [] => none
      | _ :: rest => (findSub rest needle).map (· + 1)

/-- Replace every non-overlapping occurrence of `pat` (scanning left to
right) by `rep`, as `str::replace` does; fuel-driven structural recursion,
where the caller supplies fuel at least the haystack length. -/
def replaceFuel (pat rep : List Char) : Nat → List Char → List Char
  | _, [] => []
  | 0, l => l
  | fuel + 1, c :: cs =>
    if startsWithChars (c :: cs) pat then
      rep ++ replaceFuel pat rep fuel (cs.drop (pat.length - 1))
    else
      c :: replaceFuel pat rep fuel cs

/-- Model of Rust `String::replace(pat, rep)`. The source only ever calls it
with the empty string as `rep`; for an empty pattern with empty replacement
Rust returns the string unchanged, which we mirror. -/
def rustReplace (s pat rep : String) : String :=
  if pat.toList.isEmpty then s
  else String.mk (replaceFuel pat.toList rep.toList s.toList.length s.toList)

/-- Fuel-driven worker for `rustSplit` (`cur` is the current piece,
reversed). -/
def splitFuel (sep : List Char) : Nat → List Char → List Char → List (List Char)
  | _, [], cur => [cur.reverse]
  | 0, rest, cur => [cur.reverse ++ rest]
  | fuel + 1, c :: cs, cur =>
    if startsWithChars (c :: cs) sep then
      cur.reverse :: splitFuel sep fuel (cs.drop (sep.length - 1)) []
    else
      splitFuel sep fuel cs (c :: cur)

/-- Model of Rust `str::split(sep).collect::<Vec<_>>()` for a nonempty
separator (every call site uses `"@@"`, `" "`, `","` or `"/"`). -/
def rustSplit (s sep : String) : List String :=
  (splitFuel sep.toList s.toList.length s.toList []).map String.mk

/-- ASCII whitespace test backing `rustTrim`; the source only ever trims
spaces, tabs and newlines. -/
def rustWhitespace (c : Char) : Bool :=
  c == ' ' || c == '\t' || c == '\n' || c == '\r'

/-- Model of `str::trim`. -/
def rustTrim (s : String) : String :=
  String.mk (((s.toList.dropWhile rustWhitespace).reverse.dropWhile rustWhitespace).reverse)

/-- Decimal digit accumulation for `parseU32`. -/
def digitsToNat : List Char → Nat → Option Nat
  | [], acc => some acc
  | c :: cs, acc =>
    if c.isDigit then digitsToNat cs (acc * 10 + (c.toNat - '0'.toNat))
    else none

/-- Model of Rust `str::parse::<u32>()`: an optional leading `+`, then one
or more ASCII digits, value below `2 ^ 32`. -/
def parseU32 (s : String) : Option Nat :=
  let l := match s.toList with
    | '+' :: rest => rest
    | l => l
  match l with
  | [] => none
  | _ =>
    match digitsToNat l 0 with
    | some n => if n < 2 ^ 32 then some n else none
    | none => none

/-! ## Data model (`amp_agent.rs`) -/

/-- `AmpTextContentBlock`. -/
structure AmpTextContentBlock where
  text : String
deriving DecidableEq

/-- `AmpThinkingContentBlock`. -/
structure AmpThinkingContentBlock where
  thinking : String
deriving DecidableEq

/-- The closed tool vocabulary `AmpTool`; `other` is the
`#[serde(other)]` fallback variant. -/
inductive AmpTool where
  | bash | createFile | editFile | finder | glob | grep | mermaid | oracle
  | read | readMcpResource | readWebPage | task | todoRead | todoWrite
  | undoEdit | webSearch | other
deriving DecidableEq

/-- `AmpToolUseContentBlock`. -/
structure AmpToolUseContentBlock where
  id : String
  name : AmpTool
  input : JsonValue
deriving DecidableEq

/-- `AmpToolResultContentBlock`. -/
structure AmpToolResultContentBlock where
  tool_use_id : String
  run : JsonValue
deriving DecidableEq

/-- `AmpContentBlock`, the tagged content-unit union. -/
inductive AmpContentBlock where
  | text (b : AmpTextContentBlock)
  | thinking (b : AmpThinkingContentBlock)
  | toolUse (b : AmpToolUseContentBlock)
  | toolResult (b : AmpToolResultContentBlock)
deriving DecidableEq

/-- `AmpMessage`. -/
structure AmpMessage where
  role : String
  content : List AmpContentBlock
deriving DecidableEq

/-- `AmpConversation`. -/
structure AmpConversation where
  messages : List AmpMessage
deriving DecidableEq

/-- `AmpEditFileToolCall`, the pending-edit descriptor. -/
structure AmpEditFileToolCall where
  path : String
  old_str : Option String
  new_str : String
deriving DecidableEq

/-! ## Snapshot differencer

`AmpDiff` in `amp_agent.rs` (the `Diff` trait in `main.rs` is the same
logic; its extra `assert_eq!(num_diff >= 0, true)` is vacuously true for
`usize`). The Rust subtraction `other.len() - self.len()` is a `usize`
subtraction that aborts when the right side is larger; that abort is made
explicit with `Except RustPanic`. -/

/-- The aborts the sources can hit: the unsigned `len() - len()` underflow
of the differencers, and an `unwrap()` on a `None`/`Err` value in the
`main.rs` line extraction. -/
inductive RustPanic where
  | subtractionOverflow
  | unwrapFailure
deriving DecidableEq

/-- `AmpDiff<AmpContentBlock>::diff`. -/
def AmpContentBlock.diff (self other : AmpContentBlock) : Option AmpContentBlock :=
  match self, other with
  | .text a, .text b =>
    if a.text = b.text then none
    else some (.text ⟨rustReplace b.text a.text ""⟩)
  | .thinking a, .thinking b =>
    if a.thinking = b.thinking then none
    else some (.thinking ⟨rustReplace b.thinking a.thinking ""⟩)
  | .toolUse a, .toolUse b =>
    if a.id = b.id ∧ a.name = b.name ∧ a.input = b.input then none
    else some (.toolUse ⟨b.id, b.name, b.input⟩)
  | _, _ => none

/-- `AmpDiff<AmpMessage>::diff`. `num_diff` is computed before the role
check, exactly as in the source. -/
def AmpMessage.diff (self other : AmpMessage) : Except RustPanic (Option AmpMessage) :=
  if other.content.length < self.content.length then
    .error .subtractionOverflow
  else
    let numDiff := other.content.length - self.content.length
    if self.role = other.role then
      let contentDiff :=
        (self.content.zip other.content).filterMap (fun p => AmpContentBlock.diff p.1 p.2)
      let contentDiff :=
        if numDiff > 0 then contentDiff ++ other.content.reverse.take numDiff
        else contentDiff
      .ok (some ⟨self.role, contentDiff⟩)
    else
      .ok none

/-- Sequence a list of possibly-aborting computations (`collect` over an
iterator whose elements may abort). -/
def collectResults {α : Type} : List (Except RustPanic α) → Except RustPanic (List α)
  | [] => .ok []
  | x :: xs =>
    match x with
    | .error e => .error e
    | .ok a =>
      match collectResults xs with
      | .error e => .error e
      | .ok rest => .ok (a :: rest)

/-- `AmpDiff<AmpConversation>::diff`. -/
def AmpConversation.diff (self other : AmpConversation) :
    Except RustPanic (Option AmpConversation) :=
  if other.messages.length < self.messages.length then
    .error .subtractionOverflow
  else
    let numDiff := other.messages.length - self.messages.length
    match collectResults
        ((self.messages.zip other.messages).map (fun p => AmpMessage.diff p.1 p.2)) with
    | .error e => .error e
    | .ok messagesDiff =>
      let f := messagesDiff.filterMap id
      let f :=
        if numDiff > 0 then f ++ other.messages.reverse.take numDiff
        else f
      .ok (some ⟨f⟩)

/-! ## Tool taxonomy mapper -/

/-- The nine canonical tool kinds of the outbound protocol (`ToolKind`). -/
inductive ToolKind where
  | read | edit | delete | move | search | execute | think | fetch | other
deriving DecidableEq

/-- `amp_tool_to_tool_kind` from `amp_agent.rs`. -/
def amp_tool_to_tool_kind (amp_tool : AmpTool) : ToolKind :=
  match amp_tool with
  | .bash => .execute
  | .createFile => .edit
  | .editFile => .edit
  | .finder => .search
  | .glob => .execute
  | .grep => .execute
  | .mermaid => .other
  | .oracle => .think
  | .read => .read
  | .readMcpResource => .fetch
  | .readWebPage => .fetch
  | .task => .think
  | .todoRead => .think
  | .todoWrite => .think
  | .undoEdit => .edit
  | .webSearch => .search
  | .other => .other

/-- The external identifiers in the fixed static table: the serde names of
the sixteen non-fallback `AmpTool` variants, which are also exactly the
patterns of `ToolKind::amp_tool_to_tool_kind` in `main.rs`. -/
def knownToolStrings : List String :=
  ["Bash", "create_file", "edit_file", "finder", "glob", "Grep", "mermaid",
   "oracle", "Read", "read_mcp_resource", "read_web_page", "Task",
   "todo_read", "todo_write", "undo_edit", "web_search"]

/-- `ToolKind::amp_tool_to_tool_kind(&str)` from `main.rs`; a Rust match on
string literals, written as its comparison chain. -/
def ToolKind.amp_tool_to_tool_kind (amp_tool : String) : ToolKind :=
  if amp_tool = "Bash" then .execute
  else if amp_tool = "create_file" then .edit
  else if amp_tool = "edit_file" then .edit
  else if amp_tool = "finder" then .search
  else if amp_tool = "glob" then .execute
  else if amp_tool = "Grep" then .execute
  else if amp_tool = "mermaid" then .other
  else if amp_tool = "oracle" then .think
  else if amp_tool = "Read" then .read
  else if amp_tool = "read_mcp_resource" then .fetch
  else if amp_tool = "read_web_page" then .fetch
  else if amp_tool = "Task" then .think
  else if amp_tool = "todo_read" then .think
  else if amp_tool = "todo_write" then .think
  else if amp_tool = "undo_edit" then .edit
  else if amp_tool = "web_search" then .search
  else .other

/-- Serde deserialization of `AmpTool` from its JSON string: the sixteen
(partly renamed) variant names, with `#[serde(other)]` sending every other
string to `AmpTool::Other`. -/
def AmpTool.fromString (s : String) : AmpTool :=
  if s = "Bash" then .bash
  else if s = "create_file" then .createFile
  else if s = "edit_file" then .editFile
  else if s = "finder" then .finder
  else if s = "glob" then .glob
  else if s = "Grep" then .grep
  else if s = "mermaid" then .mermaid
  else if s = "oracle" then .oracle
  else if s = "Read" then .read
  else if s = "read_mcp_resource" then .readMcpResource
  else if s = "read_web_page" then .readWebPage
  else if s = "Task" then .task
  else if s = "todo_read" then .todoRead
  else if s = "todo_write" then .todoWrite
  else if s = "undo_edit" then .undoEdit
  else if s = "web_search" then .webSearch
  else .other

/-- The `Display` rendering of `AmpTool` (default tool-call titles). -/
def AmpTool.display : AmpTool → String
  | .oracle => "Consulting the Oracle"
  | .read => "Reading file"
  | .readMcpResource => "Read mcp resource"
  | .readWebPage => "Read webpage"
  | .task => "Task"
  | .todoRead => "Todo read"
  | .todoWrite => "Todo write"
  | .undoEdit => "Undo edit"
  | .webSearch => "Web search"
  | .other => "Unknown"
  | .bash => "Bash"
  | .createFile => "Creating file"
  | .editFile => "Editing file"
  | .finder => "Finder"
  | .glob => "Glob"
  | .grep => "Grep"
  | .mermaid => "Mermaid"

/-! ## Plan (todo_write) payloads -/

/-- `AmpPlanTodoStatus`. -/
inductive AmpPlanTodoStatus where
  | completed | todo | inProgress
deriving DecidableEq

/-- `AmpPlanTodoPriority`. -/
inductive AmpPlanTodoPriority where
  | high | medium | low
deriving DecidableEq

/-- `PlanEntryStatus` of the outbound protocol. -/
inductive PlanEntryStatus where
  | pending | inProgress | completed
deriving DecidableEq

/-- `PlanEntryPriority` of the outbound protocol. -/
inductive PlanEntryPriority where
  | high | medium | low
deriving DecidableEq

/-- `AmpPlanTodoStatus::to_acp_plan_status`. -/
def AmpPlanTodoStatus.to_acp_plan_status : AmpPlanTodoStatus → PlanEntryStatus
  | .completed => .completed
  | .todo => .pending
  | .inProgress => .inProgress

/-- `AmpPlanTodoPriority::to_acp_plan_priority`. -/
def AmpPlanTodoPriority.to_acp_plan_priority : AmpPlanTodoPriority → PlanEntryPriority
  | .high => .high
  | .medium => .medium
  | .low => .low

/-- `AmpPlanTodo`. -/
structure AmpPlanTodo where
  id : String
  content : String
  status : AmpPlanTodoStatus
  priority : AmpPlanTodoPriority
deriving DecidableEq

/-- `AmpPlanWriteToolCall`. -/
structure AmpPlanWriteToolCall where
  todos : List AmpPlanTodo
deriving DecidableEq

/-- `PlanEntry` of the outbound protocol. -/
structure PlanEntry where
  content : String
  status : PlanEntryStatus
  priority : PlanEntryPriority
deriving DecidableEq

/-- `Plan` of the outbound protocol. -/
structure Plan where
  entries : List PlanEntry
deriving DecidableEq

/-- `AmpPlanWriteToolCall::to_acp_plan`. -/
def AmpPlanWriteToolCall.to_acp_plan (p : AmpPlanWriteToolCall) : Plan :=
  ⟨p.todos.map fun t => ⟨t.content, t.status.to_acp_plan_status, t.priority.to_acp_plan_priority⟩⟩

/-! ## Serde deserialization of structured tool inputs

Each `parse...` definition models `serde_json::from_value::<T>` for the
corresponding input struct: required fields must be present with the right
type, `Option` fields accept absence and `null`, unknown extra fields are
ignored, and any type mismatch fails the whole parse. -/

/-- Required `String` field. -/
def reqStr (j : JsonValue) (k : String) : Option String :=
  (j.getField k).bind JsonValue.asStr

/-- Optional `String` field: `some none` when absent or `null`, `none`
(parse failure) on a present non-string, non-null value. -/
def optStr (j : JsonValue) (k : String) : Option (Option String) :=
  match j.getField k with
  | none => some none
  | some .null => some none
  | some (.str s) => some (some s)
  | some _ => none

/-- `serde_json::from_value::<AmpEditFileToolCall>` (fields `path`,
`old_str`, `new_str`). -/
def parseAmpEditFileToolCall (j : JsonValue) : Option AmpEditFileToolCall :=
  match reqStr j "path", optStr j "old_str", reqStr j "new_str" with
  | some path, some old_str, some new_str => some ⟨path, old_str, new_str⟩
  | _, _, _ => none

/-- Deserialization of `AmpPlanTodoStatus` (serde-renamed values). -/
def parseAmpPlanTodoStatus : JsonValue → Option AmpPlanTodoStatus
  | .str "completed" => some .completed
  | .str "todo" => some .todo
  | .str "in-progress" => some .inProgress
  | _ => none

/-- Deserialization of `AmpPlanTodoPriority`. -/
def parseAmpPlanTodoPriority : JsonValue → Option AmpPlanTodoPriority
  | .str "high" => some .high
  | .str "medium" => some .medium
  | .str "low" => some .low
  | _ => none

/-- Deserialization of one `AmpPlanTodo`. -/
def parseAmpPlanTodo (j : JsonValue) : Option AmpPlanTodo :=
  match reqStr j "id", reqStr j "content",
      (j.getField "status").bind parseAmpPlanTodoStatus,
      (j.getField "priority").bind parseAmpPlanTodoPriority with
  | some id, some content, some status, some priority =>
    some ⟨id, content, status, priority⟩
  | _, _, _, _ => none

/-- Deserialization of a plan-todo array; fails if any element fails. -/
def parseAmpPlanTodos : JsonItems → Option (List AmpPlanTodo)
  | .nil => some []
  | .cons h t =>
    match parseAmpPlanTodo h, parseAmpPlanTodos t with
    | some x, some xs => some (x :: xs)
    | _, _ => none

/-- `serde_json::from_value::<AmpPlanWriteToolCall>` (field `todos`). -/
def parseAmpPlanWriteToolCall (j : JsonValue) : Option AmpPlanWriteToolCall :=
  match j.getField "todos" with
  | some (.arr xs) => (parseAmpPlanTodos xs).map (⟨·⟩)
  | _ => none

/-- `i32` element (`read_range` entries). -/
def asI32 : JsonValue → Option Int
  | .num n => if -(2 ^ 31) ≤ n ∧ n < 2 ^ 31 then some n else none
  | _ => none

/-- Deserialization of an `i32` array. -/
def parseI32Items : JsonItems → Option (List Int)
  | .nil => some []
  | .cons h t =>
    match asI32 h, parseI32Items t with
    | some x, some xs => some (x :: xs)
    | _, _ => none

/-- `AmpReadToolInput` (fields `path`, `read_range`). -/
structure AmpReadToolInput where
  path : String
  read_range : Option (List Int)
deriving DecidableEq

/-- `serde_json::from_value::<AmpReadToolInput>`. -/
def parseAmpReadToolInput (j : JsonValue) : Option AmpReadToolInput :=
  match reqStr j "path" with
  | none => none
  | some path =>
    match j.getField "read_range" with
    | none => some ⟨path, none⟩
    | some .null => some ⟨path, none⟩
    | some (.arr xs) => (parseI32Items xs).map (fun l => ⟨path, some l⟩)
    | some _ => none

/-- `AmpCreateToolInput` (fields `path`, `content`). -/
structure AmpCreateToolInput where
  path : String
  content : String
deriving DecidableEq

/-- `serde_json::from_value::<AmpCreateToolInput>`. -/
def parseAmpCreateToolInput (j : JsonValue) : Option AmpCreateToolInput :=
  match reqStr j "path", reqStr j "content" with
  | some path, some content => some ⟨path, content⟩
  | _, _ => none

/-- `AmpBashToolInput` (fields `cmd`, `cwd`). -/
structure AmpBashToolInput where
  cmd : String
  cwd : Option String
deriving DecidableEq

/-- `serde_json::from_value::<AmpBashToolInput>`. -/
def parseAmpBashToolInput (j : JsonValue) : Option AmpBashToolInput :=
  match reqStr j "cmd", optStr j "cwd" with
  | some cmd, some cwd => some ⟨cmd, cwd⟩
  | _, _ => none

/-- `u32` field value. -/
def asU32 : JsonValue → Option Nat
  | .num n => if 0 ≤ n ∧ n < 2 ^ 32 then some n.toNat else none
  | _ => none

/-- `AmpWebSearchToolInput` (fields `query`, `max_results`). -/
structure AmpWebSearchToolInput where
  query : String
  max_results : Option Nat
deriving DecidableEq

/-- `serde_json::from_value::<AmpWebSearchToolInput>`. -/
def parseAmpWebSearchToolInput (j : JsonValue) : Option AmpWebSearchToolInput :=
  match reqStr j "query" with
  | none => none
  | some query =>
    match j.getField "max_results" with
    | none => some ⟨query, none⟩
    | some .null => some ⟨query, none⟩
    | some v => (asU32 v).map (fun n => ⟨query, some n⟩)

/-- `AmpWebReadToolInput` (fields `url`, `prompt`, `raw`). -/
structure AmpWebReadToolInput where
  url : String
  prompt : Option String
  raw : Option Bool
deriving DecidableEq

/-- Optional `bool` field. -/
def optBool (j : JsonValue) (k : String) : Option (Option Bool) :=
  match j.getField k with
  | none => some none
  | some .null => some none
  | some (.bool b) => some (some b)
  | some _ => none

/-- `serde_json::from_value::<AmpWebReadToolInput>`. -/
def parseAmpWebReadToolInput (j : JsonValue) : Option AmpWebReadToolInput :=
  match reqStr j "url", optStr j "prompt", optBool j "raw" with
  | some url, some prompt, some raw => some ⟨url, prompt, raw⟩
  | _, _, _ => none

/-! ## Diff-hunk locator -/

/-- `get_line_number_from_diff_str` from `amp_agent.rs`: split on `"@@"`,
take the second segment, trim, tokenize on single spaces, take the second
token, split on `","`, take the first component, strip every `+`, parse as
`u32`. (The `main.rs` snapshot loop inlines the same steps but with
`unwrap()` at each one; only the amp_agent form is reachable from the
classifier modelled here.) -/
def get_line_number_from_diff_str (diff : String) : Option Nat :=
  let parts := rustSplit diff "@@"
  match parts.get? 1 with
  | none => none
  | some header =>
    let header := rustTrim header
    let lineInfoParts := rustSplit header " "
    match lineInfoParts.get? 1 with
    | none => none
    | some finalLineNumber =>
      let lineNumberParts := rustSplit finalLineNumber ","
      match lineNumberParts.head? with
      | none => none
      | some ln => parseU32 (rustReplace ln "+" "")

/-- Line extraction from a tool-result payload: `run.get("result")`, then
`.get("diff")`, then `.as_str()`, then the hunk locator — each step
best-effort. -/
def run_diff_line (run : JsonValue) : Option Nat :=
  match run.getField "result" with
  | none => none
  | some result =>
    match result.getField "diff" with
    | none => none
    | some d =>
      match d.asStr with
      | none => none
      | some s => get_line_number_from_diff_str s

/-! ## Thinking-segment extraction -/

/-- The opening delimiter of an embedded thinking segment. -/
def thinkingOpen : List Char := "<thinking>".toList

/-- The closing delimiter of an embedded thinking segment. -/
def thinkingClose : List Char := "</thinking>".toList

/-- Worker for `extract_thinking`, mirroring its `while let` loop on the
suffix of the text starting at `current_pos`. Each iteration consumes at
least eleven characters, so fuel equal to the text length suffices; the
zero-fuel row coincides with the loop-exit row because the remaining text is
then empty. Note the source quirk: when an opening marker has no matching
closing marker, the text before the marker is pushed and then the whole
remaining text (which repeats it) is pushed again after the `break`. -/
def extractThinkingGo : Nat → List Char → List String → List String →
    List String × List String
  | 0, rest, thinks, texts =>
    if rest.length > 0 then (thinks, texts ++ [String.mk rest]) else (thinks, texts)
  | fuel + 1, rest, thinks, texts =>
    match findSub rest thinkingOpen with
    | none =>
      if rest.length > 0 then (thinks, texts ++ [String.mk rest]) else (thinks, texts)
    | some i =>
      let texts' := if i > 0 then texts ++ [String.mk (rest.take i)] else texts
      let afterStart := rest.drop i
      match findSub afterStart thinkingClose with
      | none => (thinks, texts' ++ [String.mk rest])
      | some j =>
        let thinkingContent := (afterStart.drop 10).take (j - 10)
        extractThinkingGo fuel (afterStart.drop (j + 11))
          (thinks ++ [rustTrim (String.mk thinkingContent)]) texts'

/-- `AmpAgent::extract_thinking`: splits a text into its `<thinking>`-tagged
segments (trimmed) and the remaining plain text parts, returned as
`(thinking_parts, text_parts)`. -/
def extract_thinking (text : String) : List String × List String :=
  extractThinkingGo text.toList.length text.toList [] []

/-! ## JSON rendering (`serde_json::Value::to_string`), used for the
generic tool-result text payload. Strings receive the standard JSON
escapes; object fields are rendered in stored order (the map ordering of
`serde_json` is abstracted away, and no claim inspects this text). -/

/-- One hexadecimal digit. -/
def hexDigit (n : Nat) : Char :=
  if n < 10 then Char.ofNat ('0'.toNat + n) else Char.ofNat ('a'.toNat + n - 10)

/-- JSON string escaping of one character. -/
def escapeJsonChar (c : Char) : List Char :=
  if c == '"' then ['\\', '"']
  else if c == '\\' then ['\\', '\\']
  else if c == '\n' then ['\\', 'n']
  else if c == '\t' then ['\\', 't']
  else if c == '\r' then ['\\', 'r']
  else if c.toNat == 8 then ['\\', 'b']
  else if c.toNat == 12 then ['\\', 'f']
  else if c.toNat < 32 then
    ['\\', 'u', '0', '0', hexDigit (c.toNat / 16), hexDigit (c.toNat % 16)]
  else [c]

/-- Rendering of a JSON string literal. -/
def renderJsonString (s : String) : String :=
  String.mk ('"' :: (s.toList.map escapeJsonChar).flatten ++ ['"'])

mutual

/-- Compact rendering of a JSON value. -/
def JsonValue.render : JsonValue → String
  | .null => "null"
  | .bool true => "true"
  | .bool false => "false"
  | .num n => toString n
  | .str s => renderJsonString s
  | .arr items => "[" ++ items.render ++ "]"
  | .obj fields => "\x7b" ++ fields.render ++ "\x7d"

/-- Comma-joined rendering of array elements. -/
def JsonItems.render : JsonItems → String
  | .nil => ""
  | .cons h .nil => h.render
  | .cons h t => h.render ++ "," ++ t.render

/-- Comma-joined rendering of object fields. -/
def JsonFields.render : JsonFields → String
  | .nil => ""
  | .cons k v .nil => renderJsonString k ++ ":" ++ v.render
  | .cons k v t => renderJsonString k ++ ":" ++ v.render ++ "," ++ t.render

end

/-! ## Tool-call lifecycle tracker

The `file_edits: HashMap<String, AmpEditFileToolCall>` map, modelled as an
association list whose observable behaviour (lookup after the operations
used by the sources) matches the hash map's. -/

/-- The tracker state. -/
abbrev FileEdits : Type := List (String × AmpEditFileToolCall)

/-- `HashMap::get`-style lookup. -/
def lookup_edit (fe : FileEdits) (id : String) : Option AmpEditFileToolCall :=
  ((List.find? (fun p => p.1 == id) fe)).map (·.2)

/-- Removal of every binding of `id` (the map-shaped part of
`HashMap::remove`). -/
def erase_edit (fe : FileEdits) (id : String) : FileEdits :=
  List.filter (fun p => !(p.1 == id)) fe

/-- `file_edits.entry(id).or_insert(data)` as used in `amp_agent.rs`:
insert only when the key is absent, keeping a first-seen entry. -/
def entry_or_insert (fe : FileEdits) (id : String) (v : AmpEditFileToolCall) : FileEdits :=
  match lookup_edit fe id with
  | some _ => fe
  | none => fe ++ [(id, v)]

/-- `file_edits.insert(id, data)` as used in `main.rs` line 635: insert
unconditionally, overwriting any previous binding of the key. -/
def insert_edit (fe : FileEdits) (id : String) (v : AmpEditFileToolCall) : FileEdits :=
  erase_edit fe id ++ [(id, v)]

/-! ## Outbound updates and the content-block classifier -/

/-- `ToolCallStatus`. -/
inductive ToolCallStatus where
  | pending | inProgress | completed | failed
deriving DecidableEq

/-- `ToolCallContent`: either plain text content or a diff entry
(`Diff { path, old_text, new_text }`). -/
inductive ToolCallContent where
  | content (text : String)
  | diff (path : String) (old_text : Option String) (new_text : String)
deriving DecidableEq

/-- `ToolCallLocation` (path plus optional line). -/
structure ToolCallLocation where
  path : String
  line : Option Nat
deriving DecidableEq

/-- The session updates emitted by `AmpAgent::process_message`. The
`toolCall` constructor carries `id`, `kind`, `status`, `title`, `content`,
`locations` and `meta` of `SessionUpdate::ToolCall`; `toolCallUpdate`
carries the `ToolCallUpdateFields` that the source ever sets (`kind`,
`status`, `title`, `content`, `locations`; the raw input/output fields are
always `None` and are omitted). -/
inductive SessionUpdate where
  | userMessageChunk (text : String)
  | agentMessageChunk (text : String)
  | agentThoughtChunk (text : String)
  | plan (p : Plan)
  | toolCall (id : String) (kind : ToolKind) (status : ToolCallStatus) (title : String)
      (content : List ToolCallContent) (locations : List ToolCallLocation)
      (meta : Option JsonValue)
  | toolCallUpdate (id : String) (kind : Option ToolKind) (status : Option ToolCallStatus)
      (title : Option String) (content : Option (List ToolCallContent))
      (locations : Option (List ToolCallLocation))
deriving DecidableEq

/-- The `meta` payload attached to Oracle tool calls. -/
def oracleMeta : JsonValue :=
  .obj (.cons "_isOracle" (.bool true)
    (.cons "_modelType" (.str "reasoning")
      (.cons "_description" (.str "Using more powerful reasoning model (GPT-5)") .nil)))

/-- The `meta` payload attached to Task tool calls. -/
def taskMeta : JsonValue :=
  .obj (.cons "_isSubagent" (.bool true)
    (.cons "_description" (.str "Spawning independent subagent with own context") .nil))

/-- `PathBuf::file_name().unwrap_or_default()` on the common shapes the
titles use: the final `/`-separated component, empty when absent. -/
def fileName (p : String) : String :=
  ((rustSplit p "/").getLast?).getD ""

/-- Classification of one `AmpContentBlock` by `AmpAgent::process_message`,
as the pure function from (filesystem oracle for `path.is_file()`, message
role, `parent_tool_use_id`, tracker state, block) to the successor tracker
state and the ordered list of emitted session updates. -/
def process_block (isFile : String → Bool) (role : String) (parent : Option String)
    (fe : FileEdits) : AmpContentBlock → FileEdits × List SessionUpdate
  | .text tb =>
    if parent.isSome then (fe, [])
    else
      let parts := extract_thinking tb.text
      let thoughtEvents := parts.1.filterMap fun t =>
        if t = "" then none else some (.agentThoughtChunk t)
      let textEvents := parts.2.filterMap fun t =>
        if rustTrim t = "" then none
        else if role = "user" then some (.userMessageChunk t)
        else some (.agentMessageChunk t)
      (fe, thoughtEvents ++ textEvents)
  | .thinking tb => (fe, [.agentThoughtChunk tb.thinking])
  | .toolUse b =>
    let kind := amp_tool_to_tool_kind b.name
    match b.name with
    | .editFile =>
      match parseAmpEditFileToolCall b.input with
      | some data => (entry_or_insert fe b.id data, [])
      | none => (fe, [.toolCall b.id kind .pending (AmpTool.display .editFile) [] [] none])
    | .todoWrite =>
      match parseAmpPlanWriteToolCall b.input with
      | some plan => (fe, [.plan plan.to_acp_plan])
      | none => (fe, [.toolCall b.id kind .pending (AmpTool.display .todoWrite) [] [] none])
    | .oracle => (fe, [.toolCall b.id kind .pending (AmpTool.display .oracle) [] [] (some oracleMeta)])
    | .task => (fe, [.toolCall b.id kind .pending (AmpTool.display .task) [] [] (some taskMeta)])
    | .read =>
      let title :=
        match parseAmpReadToolInput b.input with
        | some t =>
          if isFile t.path then
            "Read [" ++ fileName t.path ++ "](file://" ++ t.path ++ ")"
          else "Read " ++ t.path
        | none => AmpTool.display .read
      (fe, [.toolCall b.id kind .pending title [] [] none])
    | .createFile =>
      match parseAmpCreateToolInput b.input with
      | some t =>
        (fe, [.toolCall b.id kind .pending
          ("Created [" ++ fileName t.path ++ "](file://" ++ t.path ++ ")")
          [.content t.content] [] none])
      | none => (fe, [.toolCall b.id kind .pending (AmpTool.display .createFile) [] [] none])
    | .bash =>
      let title :=
        match parseAmpBashToolInput b.input with
        | some t => t.cmd
        | none => AmpTool.display .bash
      (fe, [.toolCall b.id kind .pending title [] [] none])
    | .webSearch =>
      let title :=
        match parseAmpWebSearchToolInput b.input with
        | some t => "Searching for \"" ++ t.query ++ "\""
        | none => AmpTool.display .webSearch
      (fe, [.toolCall b.id kind .pending title [] [] none])
    | .readWebPage =>
      let title :=
        match parseAmpWebReadToolInput b.input with
        | some t => "Reading " ++ t.url
        | none => AmpTool.display .readWebPage
      (fe, [.toolCall b.id kind .pending title [] [] none])
    | name => (fe, [.toolCall b.id kind .pending (AmpTool.display name) [] [] none])
  | .toolResult b =>
    match lookup_edit fe b.tool_use_id with
    | some file_edit =>
      let line := run_diff_line b.run
      (erase_edit fe b.tool_use_id,
       [.toolCallUpdate b.tool_use_id none (some .completed) none
          (some [.diff file_edit.path file_edit.old_str file_edit.new_str])
          (some [⟨file_edit.path, line⟩])])
    | none =>
      (fe, [.toolCallUpdate b.tool_use_id none (some .completed) none
          (some [.content b.run.render]) none])

/-- Classification of a list of content blocks in order, threading the
tracker. -/
def process_blocks (isFile : String → Bool) (role : String) (parent : Option String) :
    FileEdits → List AmpContentBlock → FileEdits × List SessionUpdate
  | fe, [] => (fe, [])
  | fe, b :: bs =>
    let r := process_block isFile role parent fe b
    let rest := process_blocks isFile role parent r.1 bs
    (rest.1, r.2 ++ rest.2)

/-- `AmpAgent::process_message` as a pure function: classify every content
block of the message in order. -/
def process_message (isFile : String → Bool) (message : AmpMessage) (fe : FileEdits)
    (parent : Option String) : FileEdits × List SessionUpdate :=
  process_blocks isFile message.role parent fe message.content

/-- Classification of every message of a conversation in order (the
per-message loop of the snapshot path, where no parent id exists). -/
def process_conversation (isFile : String → Bool) :
    FileEdits → List AmpMessage → FileEdits × List SessionUpdate
  | fe, [] => (fe, [])
  | fe, m :: ms =>
    let r := process_message isFile m fe none
    let rest := process_conversation isFile r.1 ms
    (rest.1, r.2 ++ rest.2)

/-- Variant tag of a content block (0 text, 1 thinking, 2 tool-use,
3 tool-result), used to state which pairings the per-content-unit diff
silently drops. -/
def blockTag : AmpContentBlock → Nat
  | .text _ => 0
  | .thinking _ => 1
  | .toolUse _ => 2
  | .toolResult _ => 3

/-! ## The `main.rs` tool-result arm

The snapshot-loop classifier in `main.rs` handles a ToolResult with its own
types and, unlike the `amp_agent.rs` locator, extracts the hunk line with
`unwrap()` at every step, so a failing step aborts instead of yielding no
location. -/

/-- `EditFileToolCall` of `main.rs` (its `old_str` is not optional). -/
structure EditFileToolCall where
  path : String
  old_str : String
  new_str : String
deriving DecidableEq

/-- `AgentToolCallResultContent` of `main.rs`: plain content, a diff block
(`new_text`, `old_text`, `path`), or a follow block (`path`, `line`). -/
inductive MainToolCallResultContent where
  | content (text : String)
  | diff (new_text : String) (old_text : String) (path : String)
  | follow (path : String) (line : Nat)
deriving DecidableEq

/-- `AgentToolCallResult` of `main.rs`. -/
structure MainToolCallResult where
  tool_call_id : String
  status : ToolCallStatus
  content : List MainToolCallResultContent
deriving DecidableEq

/-- The `main.rs` tracker state (`HashMap<String, EditFileToolCall>`). -/
abbrev MainFileEdits : Type := List (String × EditFileToolCall)

/-- Lookup in the `main.rs` tracker. -/
def main_lookup_edit (fe : MainFileEdits) (id : String) : Option EditFileToolCall :=
  ((List.find? (fun p => p.1 == id) fe)).map (·.2)

/-- Removal of a binding from the `main.rs` tracker (the map-shaped part of
`HashMap::remove`). -/
def main_erase_edit (fe : MainFileEdits) (id : String) : MainFileEdits :=
  List.filter (fun p => !(p.1 == id)) fe

/-- Model of Rust `str::parse::<usize>()` (64-bit): an optional leading
`+`, then one or more ASCII digits, value below `2 ^ 64`. -/
def parseUsize (s : String) : Option Nat :=
  let l := match s.toList with
    | '+' :: rest => rest
    | l => l
  match l with
  | [] => none
  | _ =>
    match digitsToNat l 0 with
    | some n => if n < 2 ^ 64 then some n else none
    | none => none

/-- The inline line extraction of `main.rs` lines 699-718, applied to the
`diff` value: `as_str().unwrap()`, split on `"@@"`, `get(1).unwrap()`,
trim, split on `" "`, `get(1).unwrap()`, split on `","`,
`get(0).unwrap()`, strip `+`, `parse().unwrap()` — any failing step
aborts. -/
def main_extract_line (d : JsonValue) : Except RustPanic Nat :=
  match d.asStr with
  | none => .error .unwrapFailure
  | some s =>
    match (rustSplit s "@@").get? 1 with
    | none => .error .unwrapFailure
    | some header =>
      match (rustSplit (rustTrim header) " ").get? 1 with
      | none => .error .unwrapFailure
      | some tok =>
        match (rustSplit tok ",").head? with
        | none => .error .unwrapFailure
        | some ln =>
          match parseUsize (rustReplace ln "+" "") with
          | none => .error .unwrapFailure
          | some n => .ok n

/-- The ToolResult arm of the `main.rs` snapshot loop: a tracked edit is
removed and reported as a completed result with a diff entry, with a follow
entry appended when `run.result.diff` exists — in which case the extraction
runs and its abort propagates; an untracked result is reported as generic
text. -/
def main_process_tool_result (fe : MainFileEdits) (b : AmpToolResultContentBlock) :
    Except RustPanic (MainFileEdits × MainToolCallResult) :=
  match main_lookup_edit fe b.tool_use_id with
  | some file_edit =>
    let base : MainToolCallResult :=
      ⟨b.tool_use_id, .completed,
        [.diff file_edit.new_str file_edit.old_str file_edit.path]⟩
    match b.run.getField "result" with
    | none => .ok (main_erase_edit fe b.tool_use_id, base)
    | some result =>
      match result.getField "diff" with
      | none => .ok (main_erase_edit fe b.tool_use_id, base)
      | some d =>
        match main_extract_line d with
        | .error e => .error e
        | .ok line =>
          .ok (main_erase_edit fe b.tool_use_id,
            ⟨b.tool_use_id, .completed,
              base.content ++ [.follow file_edit.path line]⟩)
  | none =>
    .ok (fe, ⟨b.tool_use_id, .completed, [.content b.run.render]⟩)

/-! ## Helper lemmas -/

/-- Diffing any content block against itself yields no change. -/
theorem diff_self_content_block (b : AmpContentBlock) : AmpContentBlock.diff b b = none := by
  cases b <;> simp [AmpContentBlock.diff]

/-- Pairwise self-diff of a content list filters to nothing. -/
theorem zip_self_filterMap_diff (l : List AmpContentBlock) :
    (l.zip l).filterMap (fun p => AmpContentBlock.diff p.1 p.2) = [] := by
  induction l with
  | nil => rfl
  | cons h t ih => simp [List.filterMap_cons, diff_self_content_block, ih]

/-- Diffing a message against itself yields the message shell with no
content. -/
theorem diff_self_message (m : AmpMessage) :
    AmpMessage.diff m m = .ok (some ⟨m.role, []⟩) := by
  simp [AmpMessage.diff, zip_self_filterMap_diff]

/-- Collecting the pairwise self-diffs of a message list. -/
theorem collect_diff_self (ms : List AmpMessage) :
    collectResults ((ms.zip ms).map (fun p => AmpMessage.diff p.1 p.2))
      = .ok (ms.map (fun m => some (⟨m.role, []⟩ : AmpMessage))) := by
  induction ms with
  | nil => rfl
  | cons h t ih =>
    simp only [List.zip_cons_cons, List.map_cons, collectResults, diff_self_message]
    rw [show List.zipWith Prod.mk t t = t.zip t from rfl, ih]

/-- Mapping to `some` then filtering the options away is a plain map. -/
theorem filterMap_some_shell (l : List AmpMessage) :
    List.filterMap (fun m => some (⟨m.role, []⟩ : AmpMessage)) l
      = l.map (fun m => ⟨m.role, []⟩) := by
  induction l with
  | nil => rfl
  | cons h t ih => simp [ih]

/-- Diffing a conversation against itself: every message survives as an
empty-content shell. -/
theorem diff_self_conversation (A : AmpConversation) :
    AmpConversation.diff A A
      = .ok (some ⟨A.messages.map (fun m => ⟨m.role, []⟩)⟩) := by
  simp [AmpConversation.diff, collect_diff_self, List.filterMap_map,
    filterMap_some_shell]

/-- Classifying messages that all have empty content emits nothing and
leaves the tracker untouched. -/
theorem process_conversation_no_content (isFile : String → Bool) (fe : FileEdits)
    (ms : List AmpMessage) (h : ∀ m ∈ ms, m.content = []) :
    process_conversation isFile fe ms = (fe, []) := by
  induction ms generalizing fe with
  | nil => rfl
  | cons m t ih =>
    have hm : m.content = [] := h m (by simp)
    have ht : ∀ x ∈ t, x.content = [] := fun x hx => h x (by simp [hx])
    simp [process_conversation, process_message, hm, process_blocks, ih fe ht]

/-- A string outside the static tool table maps to the fallback kind in the
`main.rs` string mapper. -/
theorem tool_kind_str_default (s : String) (h : s ∉ knownToolStrings) :
    ToolKind.amp_tool_to_tool_kind s = .other := by
  simp only [knownToolStrings, List.mem_cons, List.not_mem_nil, or_false, not_or] at h
  obtain ⟨h1, h2, h3, h4, h5, h6, h7, h8, h9, h10, h11, h12, h13, h14, h15, h16⟩ := h
  simp [ToolKind.amp_tool_to_tool_kind, h1, h2, h3, h4, h5, h6, h7, h8, h9, h10,
    h11, h12, h13, h14, h15, h16]

/-- A string outside the static tool table deserializes to
`AmpTool::Other`. -/
theorem fromString_default (s : String) (h : s ∉ knownToolStrings) :
    AmpTool.fromString s = .other := by
  simp only [knownToolStrings, List.mem_cons, List.not_mem_nil, or_false, not_or] at h
  obtain ⟨h1, h2, h3, h4, h5, h6, h7, h8, h9, h10, h11, h12, h13, h14, h15, h16⟩ := h
  simp [AmpTool.fromString, h1, h2, h3, h4, h5, h6, h7, h8, h9, h10,
    h11, h12, h13, h14, h15, h16]

/-- The string mapper always lands in the nine-kind vocabulary. -/
theorem tool_kind_str_mem (s : String) :
    ToolKind.amp_tool_to_tool_kind s
      ∈ ([.read, .edit, .delete, .move, .search, .execute, .think, .fetch, .other] :
          List ToolKind) := by
  by_cases h : s ∈ knownToolStrings
  · fin_cases h <;> decide
  · rw [tool_kind_str_default s h]; decide

/-- Finding the erased key among the remaining entries fails. -/
theorem find_erase_none (fe : FileEdits) (id : String) :
    List.find? (fun p => p.1 == id) (erase_edit fe id) = none := by
  induction fe with
  | nil => rfl
  | cons p t ih =>
    simp only [erase_edit] at ih ⊢
    by_cases h : p.1 == id
    · simp [List.filter_cons, h, ih]
    · simp [List.filter_cons, h, List.find?_cons, ih]

/-- Lookup after erasure of the same key fails. -/
theorem lookup_edit_erase (fe : FileEdits) (id : String) :
    lookup_edit (erase_edit fe id) id = none := by
  simp [lookup_edit, find_erase_none]

/-! ## Claim theorems -/

/-- Claim C1 (code bug): the per-content-unit diff of Text blocks is required
to be a prefix-suffix computation (delta is the suffix past the old prefix,
or the flagged full new text otherwise), but the code computes
`new_text.replace(&old_text, "")`, deleting every occurrence of the old text
anywhere in the new text and never flagging anything. At old "Hello" and new
"Hello, world. Hello again" (which does start with the old text, so the
required delta is ", world. Hello again") the code instead yields
", world.  again". The spec's simple streaming scenario, where the old text
occurs exactly once, still evaluates as documented. -/
theorem c1_text_diff_code_bug :
    AmpContentBlock.diff (.text ⟨"Hello"⟩) (.text ⟨"Hello, world. Hello again"⟩)
      = some (.text ⟨", world.  again"⟩)
  ∧ (", world.  again" : String) ≠ ", world. Hello again"
  ∧ AmpContentBlock.diff (.text ⟨"Hello"⟩) (.text ⟨"Hello, world"⟩)
      = some (.text ⟨", world"⟩) :=
  ⟨by decide, by decide, by decide⟩

/-- Claim C2 (code bug): the trailing `extra` items present only in the
current observation are required to be appended in original source order,
but `…iter().rev().take(num_diff)` collects them reversed and they are
appended without re-reversal — both for trailing messages of a conversation
and for trailing content units of a message. Diffing an empty conversation
against one with messages a then b yields them as b then a. -/
theorem c2_trailing_reversed_code_bug :
    AmpConversation.diff ⟨[]⟩
        ⟨[⟨"assistant", [.text ⟨"a"⟩]⟩, ⟨"assistant", [.text ⟨"b"⟩]⟩]⟩
      = .ok (some ⟨[⟨"assistant", [.text ⟨"b"⟩]⟩, ⟨"assistant", [.text ⟨"a"⟩]⟩]⟩)
  ∧ ([⟨"assistant", [.text ⟨"b"⟩]⟩, ⟨"assistant", [.text ⟨"a"⟩]⟩] : List AmpMessage)
      ≠ [⟨"assistant", [.text ⟨"a"⟩]⟩, ⟨"assistant", [.text ⟨"b"⟩]⟩]
  ∧ AmpMessage.diff ⟨"assistant", []⟩ ⟨"assistant", [.text ⟨"a"⟩, .text ⟨"b"⟩]⟩
      = .ok (some ⟨"assistant", [.text ⟨"b"⟩, .text ⟨"a"⟩]⟩) :=
  ⟨rfl, by decide, rfl⟩

/-- Claim C3 (confirmed): a ToolUse of the edit-file tool with parseable
input stores the PendingEdit in the tracker under the unit's id and emits
nothing; a later ToolResult whose id is tracked removes the entry and
emits exactly one completed ToolCallUpdated carrying one Diff content entry
with the stored old text, new text and path, and one location at that path
with the line number extracted from the embedded diff text, which is 5 for
a hunk header "@@ -5,1 +5,1 @@". -/
theorem c3_edit_correlation :
    (∀ (isFile : String → Bool) (role : String) (parent : Option String) (fe : FileEdits)
        (id : String) (input : JsonValue) (d : AmpEditFileToolCall),
        parseAmpEditFileToolCall input = some d →
        lookup_edit fe id = none →
        process_block isFile role parent fe (.toolUse ⟨id, .editFile, input⟩)
          = (fe ++ [(id, d)], []))
  ∧ (∀ (isFile : String → Bool) (role : String) (parent : Option String) (fe : FileEdits)
        (id : String) (run : JsonValue) (d : AmpEditFileToolCall),
        lookup_edit fe id = some d →
        process_block isFile role parent fe (.toolResult ⟨id, run⟩)
          = (erase_edit fe id,
             [.toolCallUpdate id none (some .completed) none
                (some [.diff d.path d.old_str d.new_str])
                (some [⟨d.path, run_diff_line run⟩])]))
  ∧ get_line_number_from_diff_str "...@@ -5,1 +5,1 @@..." = some 5 := by
  refine ⟨?_, ?_, by decide⟩
  · intro isFile role parent fe id input d hp hl
    simp [process_block, hp, entry_or_insert, hl]
  · intro isFile role parent fe id run d hl
    simp [process_block, hl]

/-- Witness for C3 at the spec's concrete scenario: tool-use t1 editing
a.rs from "x" to "y" stores the pending edit silently, and its result
carrying a "@@ -5,1 +5,1 @@" hunk produces the completed update with the
diff entry and a location at line 5. -/
theorem c3_edit_correlation_witness :
    process_block (fun _ => false) "assistant" none []
        (.toolUse ⟨"t1", .editFile,
          .obj (.cons "path" (.str "a.rs") (.cons "old_str" (.str "x")
            (.cons "new_str" (.str "y") .nil)))⟩)
      = ([("t1", ⟨"a.rs", some "x", "y"⟩)], [])
  ∧ process_block (fun _ => false) "assistant" none [("t1", ⟨"a.rs", some "x", "y"⟩)]
        (.toolResult ⟨"t1",
          .obj (.cons "result" (.obj (.cons "diff" (.str "...@@ -5,1 +5,1 @@...") .nil)) .nil)⟩)
      = ([], [.toolCallUpdate "t1" none (some .completed) none
          (some [.diff "a.rs" (some "x") "y"])
          (some [⟨"a.rs", some 5⟩])]) :=
  ⟨c3_edit_correlation.1 (fun _ => false) "assistant" none [] "t1"
      (.obj (.cons "path" (.str "a.rs") (.cons "old_str" (.str "x")
        (.cons "new_str" (.str "y") .nil)))) ⟨"a.rs", some "x", "y"⟩ rfl rfl,
   c3_edit_correlation.2.1 (fun _ => false) "assistant" none
      [("t1", ⟨"a.rs", some "x", "y"⟩)] "t1"
      (.obj (.cons "result" (.obj (.cons "diff" (.str "...@@ -5,1 +5,1 @@...") .nil)) .nil))
      ⟨"a.rs", some "x", "y"⟩ rfl⟩

/-- Claim C4 (corrected): when the current conversation has fewer messages
than the previous one, the unsigned length subtraction underflows and the
diff aborts (modelled as the `subtractionOverflow` abort) — no typed
InvariantViolation exists; and when two aligned messages have differing
roles (and the content count does not shrink, since that subtraction runs
first) the per-message diff returns `Ok(None)`: the message is silently
dropped and nothing propagates as a failed turn, contrary to the claimed
UnsupportedTranscriptShape failure. -/
theorem c4_error_modes_amended :
    (∀ prev cur : AmpConversation, cur.messages.length < prev.messages.length →
        AmpConversation.diff prev cur = .error .subtractionOverflow)
  ∧ (∀ m1 m2 : AmpMessage, m1.role ≠ m2.role →
        ¬ m2.content.length < m1.content.length →
        AmpMessage.diff m1 m2 = .ok none) := by
  constructor
  · intro prev cur h
    simp [AmpConversation.diff, h]
  · intro m1 m2 hr hn
    simp [AmpMessage.diff, hn, hr]

/-- Witness for C4: a one-message previous against an empty current aborts
with the subtraction overflow, and a user/assistant role mismatch diffs to
`Ok(None)`. -/
theorem c4_error_modes_witness :
    AmpConversation.diff ⟨[⟨"user", []⟩]⟩ ⟨[]⟩ = .error .subtractionOverflow
  ∧ AmpMessage.diff ⟨"user", []⟩ ⟨"assistant", []⟩ = .ok none :=
  ⟨c4_error_modes_amended.1 _ _ (by decide),
   c4_error_modes_amended.2 _ _ (by decide) (by decide)⟩

/-- Counterexample for C4 as stated: at a role mismatch the per-message diff
returns `Ok(None)` — the aligned messages are silently discarded and no
UnsupportedTranscriptShape (or any other) failure is raised. -/
theorem c4_role_mismatch_counterexample :
    AmpMessage.diff ⟨"user", [.text ⟨"hi"⟩]⟩ ⟨"assistant", [.text ⟨"hi there"⟩]⟩
      = .ok none := rfl

/-- Claim C5 (confirmed): diffing any conversation against itself yields an
incremental conversation with no content units at all (every surviving
message is an empty shell), and classifying it emits no outbound events and
leaves the tracker unchanged. -/
theorem c5_diff_self_empty (A : AmpConversation) (isFile : String → Bool) (fe : FileEdits) :
    ∃ d, AmpConversation.diff A A = .ok (some d)
      ∧ (∀ m ∈ d.messages, m.content = [])
      ∧ process_conversation isFile fe d.messages = (fe, []) := by
  refine ⟨⟨A.messages.map (fun m => ⟨m.role, []⟩)⟩, diff_self_conversation A, ?_, ?_⟩
  · intro m hm
    simp only [List.mem_map] at hm
    obtain ⟨x, -, rfl⟩ := hm
    rfl
  · exact process_conversation_no_content isFile fe _ (by
      intro m hm
      simp only [List.mem_map] at hm
      obtain ⟨x, -, rfl⟩ := hm
      rfl)

/-- Witness for C5 at a concrete two-block conversation. -/
theorem c5_diff_self_witness :
    ∃ d, AmpConversation.diff ⟨[⟨"assistant", [.text ⟨"hi"⟩, .toolResult ⟨"t", .null⟩]⟩]⟩
          ⟨[⟨"assistant", [.text ⟨"hi"⟩, .toolResult ⟨"t", .null⟩]⟩]⟩ = .ok (some d)
      ∧ (∀ m ∈ d.messages, m.content = [])
      ∧ process_conversation (fun _ => false) [] d.messages = ([], []) :=
  c5_diff_self_empty ⟨[⟨"assistant", [.text ⟨"hi"⟩, .toolResult ⟨"t", .null⟩]⟩]⟩
    (fun _ => false) []

/-- Claim C6 (confirmed): the taxonomy mapper is total — every identifier
string lands in the closed nine-kind vocabulary, every string outside the
fixed sixteen-entry table maps to Other in the string mapper of `main.rs`,
and the same holds through serde deserialization composed with the enum
mapper of `amp_agent.rs`. -/
theorem c6_taxonomy_totality :
    (∀ s : String, ToolKind.amp_tool_to_tool_kind s
        ∈ ([.read, .edit, .delete, .move, .search, .execute, .think, .fetch, .other] :
            List ToolKind))
  ∧ (∀ s : String, s ∉ knownToolStrings → ToolKind.amp_tool_to_tool_kind s = .other)
  ∧ (∀ s : String, s ∉ knownToolStrings →
        amp_tool_to_tool_kind (AmpTool.fromString s) = .other) :=
  ⟨tool_kind_str_mem,
   tool_kind_str_default,
   fun s h => by rw [fromString_default s h]; rfl⟩

/-- Witness for C6 at the unmapped identifier "zzz". -/
theorem c6_taxonomy_totality_witness :
    ToolKind.amp_tool_to_tool_kind "zzz"
        ∈ ([.read, .edit, .delete, .move, .search, .execute, .think, .fetch, .other] :
            List ToolKind)
  ∧ ToolKind.amp_tool_to_tool_kind "zzz" = .other
  ∧ amp_tool_to_tool_kind (AmpTool.fromString "zzz") = .other :=
  ⟨c6_taxonomy_totality.1 "zzz",
   c6_taxonomy_totality.2.1 "zzz" (by decide),
   c6_taxonomy_totality.2.2 "zzz" (by decide)⟩

/-- Claim C7 (corrected): the `amp_agent.rs` diff-hunk locator returns the
new-range start line 3 on the spec's hunk-header example and no result on
"no hunk here", and in `amp_agent.rs` classifying a tool result always
produces exactly one update whatever the locator yields; but in the
`main.rs` snapshot loop (also cited by the claim) the same extraction runs
through `unwrap()` at every step, so processing a tracked tool result whose
`run.result.diff` value makes any step fail aborts instead of degrading. -/
theorem c7_hunk_locator_amended :
    get_line_number_from_diff_str "...@@ -1,2 +3,4 @@..." = some 3
  ∧ get_line_number_from_diff_str "no hunk here" = none
  ∧ (∀ (isFile : String → Bool) (role : String) (parent : Option String)
      (fe : FileEdits) (b : AmpToolResultContentBlock),
      ((process_block isFile role parent fe (.toolResult b)).2).length = 1)
  ∧ (∀ (fe : MainFileEdits) (b : AmpToolResultContentBlock)
      (w : EditFileToolCall) (d : JsonValue),
      main_lookup_edit fe b.tool_use_id = some w →
      (b.run.getField "result").bind (fun r => r.getField "diff") = some d →
      main_extract_line d = .error .unwrapFailure →
      main_process_tool_result fe b = .error .unwrapFailure) := by
  refine ⟨by decide, by decide, ?_, ?_⟩
  · intro isFile role parent fe b
    simp only [process_block]
    cases h : lookup_edit fe b.tool_use_id <;> simp
  · intro fe b w d hw hd he
    rcases hr : b.run.getField "result" with _ | r
    · rw [hr] at hd
      simp at hd
    · rw [hr] at hd
      simp only [Option.some_bind] at hd
      simp [main_process_tool_result, hw, hr, hd, he]

/-- Witness for C7: a tool result with an unparseable payload still yields
exactly one update under the `amp_agent.rs` classifier, while the `main.rs`
arm aborts on a tracked edit whose diff text has no hunk header. -/
theorem c7_hunk_locator_amended_witness :
    ((process_block (fun _ => false) "assistant" none []
        (.toolResult ⟨"t", .str "no hunk here"⟩)).2).length = 1
  ∧ main_process_tool_result [("t1", ⟨"a.rs", "x", "y"⟩)]
      ⟨"t1", .obj (.cons "result" (.obj (.cons "diff" (.str "no hunk here") .nil)) .nil)⟩
      = .error .unwrapFailure :=
  ⟨c7_hunk_locator_amended.2.2.1 _ _ _ _ _,
   c7_hunk_locator_amended.2.2.2 _ _ ⟨"a.rs", "x", "y"⟩ (.str "no hunk here")
     rfl rfl rfl⟩

/-- Counterexample for C7 as stated: in the `main.rs` snapshot loop, a
tracked edit whose result carries the diff text "no hunk here" (the claim's
own failing example) aborts processing of the surrounding tool result with
an unwrap panic instead of yielding an update without a location. -/
theorem c7_unwrap_abort_counterexample :
    main_process_tool_result [("t7", ⟨"b.rs", "p", "q"⟩)]
      ⟨"t7", .obj (.cons "result" (.obj (.cons "diff" (.str "no hunk here") .nil)) .nil)⟩
      = .error .unwrapFailure := rfl

/-- Claim C8 (corrected): in `amp_agent.rs` the tracker insertion is
`entry().or_insert()`, keeping the first-seen entry under a duplicate id,
and a tracked ToolResult removes its entry so at most one result can
correlate; but in `main.rs` the insertion is a plain `HashMap::insert`,
which overwrites a duplicate id with the newer entry. -/
theorem c8_tracker_amended :
    (∀ (fe : FileEdits) (id : String) (v w : AmpEditFileToolCall),
        lookup_edit fe id = some w →
        lookup_edit (entry_or_insert fe id v) id = some w)
  ∧ (∀ (fe : FileEdits) (id : String) (v : AmpEditFileToolCall),
        lookup_edit (insert_edit fe id v) id = some v)
  ∧ (∀ (isFile : String → Bool) (role : String) (parent : Option String)
        (fe : FileEdits) (b : AmpToolResultContentBlock) (w : AmpEditFileToolCall),
        lookup_edit fe b.tool_use_id = some w →
        lookup_edit (process_block isFile role parent fe (.toolResult b)).1
          b.tool_use_id = none) := by
  refine ⟨?_, ?_, ?_⟩
  · intro fe id v w h
    simp [entry_or_insert, h]
  · intro fe id v
    simp [insert_edit, lookup_edit, List.find?_append, find_erase_none, List.find?_cons]
  · intro isFile role parent fe b w h
    simp [process_block, h, lookup_edit_erase]

/-- Witness for C8 at concrete entries. -/
theorem c8_tracker_witness :
    lookup_edit (entry_or_insert [("t1", ⟨"a.rs", some "x", "y"⟩)] "t1"
        ⟨"b.rs", some "p", "q"⟩) "t1" = some ⟨"a.rs", some "x", "y"⟩
  ∧ lookup_edit (insert_edit [("t1", ⟨"a.rs", some "x", "y"⟩)] "t1"
        ⟨"b.rs", some "p", "q"⟩) "t1" = some ⟨"b.rs", some "p", "q"⟩
  ∧ lookup_edit (process_block (fun _ => false) "assistant" none
        [("t1", ⟨"a.rs", some "x", "y"⟩)] (.toolResult ⟨"t1", .null⟩)).1 "t1" = none :=
  ⟨c8_tracker_amended.1 _ _ _ _ rfl,
   c8_tracker_amended.2.1 _ _ _,
   c8_tracker_amended.2.2 _ _ _ _ _ _ rfl⟩

/-- Counterexample for C8 as stated: in the `main.rs` tracker, inserting a
second PendingEdit under an already-present id replaces the first-seen
entry with the second one. -/
theorem c8_insert_overwrite_counterexample :
    lookup_edit (insert_edit (insert_edit [] "t1" ⟨"a.rs", some "x", "y"⟩) "t1"
        ⟨"b.rs", some "p", "q"⟩) "t1" = some ⟨"b.rs", some "p", "q"⟩
  ∧ (⟨"b.rs", some "p", "q"⟩ : AmpEditFileToolCall) ≠ ⟨"a.rs", some "x", "y"⟩ :=
  ⟨rfl, by decide⟩

/-- Claim C9 (corrected): a ToolUse whose tool identifier is outside the
taxonomy table deserializes to the fallback variant, so classification
emits exactly one ToolCallStarted with kind Other — but its title is the
fixed Display fallback "Unknown", not the raw identifier, which the closed
enum discards during deserialization. -/
theorem c9_unknown_tool_amended (s : String) (h : s ∉ knownToolStrings)
    (isFile : String → Bool) (role : String) (parent : Option String)
    (fe : FileEdits) (id : String) (input : JsonValue) :
    process_block isFile role parent fe (.toolUse ⟨id, AmpTool.fromString s, input⟩)
      = (fe, [.toolCall id .other .pending "Unknown" [] [] none]) := by
  rw [fromString_default s h]
  rfl

/-- Witness for C9 at the identifier "frobnicate". -/
theorem c9_unknown_tool_witness :
    ("frobnicate" : String) ∉ knownToolStrings
  ∧ process_block (fun _ => false) "assistant" none []
        (.toolUse ⟨"t", AmpTool.fromString "frobnicate", .null⟩)
      = ([], [.toolCall "t" .other .pending "Unknown" [] [] none]) :=
  ⟨by decide, c9_unknown_tool_amended "frobnicate" (by decide) _ _ _ _ _ _⟩

/-- Counterexample for C9 as stated: classifying the unknown tool
"frobnicate" produces the title "Unknown", not the raw identifier
"frobnicate". -/
theorem c9_unknown_tool_title_counterexample :
    process_block (fun _ => false) "assistant" none []
        (.toolUse ⟨"t9", AmpTool.fromString "frobnicate", .obj .nil⟩)
      = ([], [.toolCall "t9" .other .pending "Unknown" [] [] none])
  ∧ ("Unknown" : String) ≠ "frobnicate" :=
  ⟨rfl, by decide⟩

/-- Claim C10 (confirmed): when the two content units compared at an index
have different variants, or when both are ToolResult units, the
per-content-unit diff yields nothing — the changed unit is silently omitted
rather than replaced or reported. -/
theorem c10_mismatched_variants_dropped (a b : AmpContentBlock)
    (h : blockTag a ≠ blockTag b ∨ (blockTag a = 3 ∧ blockTag b = 3)) :
    AmpContentBlock.diff a b = none := by
  cases a <;> cases b <;> simp_all [AmpContentBlock.diff, blockTag]

/-- Witness for C10: a text block against a tool-use block, and two
differing tool-result blocks, both diff to nothing. -/
theorem c10_mismatched_variants_witness :
    AmpContentBlock.diff (.text ⟨"x"⟩) (.toolUse ⟨"i", .bash, .null⟩) = none
  ∧ AmpContentBlock.diff (.toolResult ⟨"r", .null⟩) (.toolResult ⟨"r", .str "changed"⟩)
      = none :=
  ⟨c10_mismatched_variants_dropped _ _ (by decide),
   c10_mismatched_variants_dropped _ _ (by decide)⟩
